import Mathlib

/-!
Verification development for the containerized evaluation orchestration
engine (swebench harness).  The Python source under `swebench/harness` is
shallowly embedded: pure string manipulation is translated to executable
Lean functions over `String`/`List Char`, the per-instance execution unit
(`run_instance`) is translated to a state-passing function that records
every externally visible operation (file writes, container operations) in
an explicit trace, and the outcomes of the container engine's fallible
calls are supplied by an environment record.
-/

/-! ### Python string primitives

Faithful models of the Python `str` operations used by the harness:
`startswith`, `endswith`, `in` (substring), `find`, slicing, `strip`,
`splitlines(keepends=True)`, `str.split("\n")`, `replace("/", "__")`,
`" ".join`, and decimal rendering of an `int` inside an f-string. -/

def isPyWS (c : Char) : Bool :=
  c == ' ' || c == '\t' || c == '\n' || c == '\r' || c == '\x0b' || c == '\x0c'

def pyStripL (l : List Char) : List Char :=
  ((l.dropWhile isPyWS).reverse.dropWhile isPyWS).reverse

def pyStrip (s : String) : String := ⟨pyStripL s.data⟩

def pyStartsWith (s p : String) : Bool := List.isPrefixOf p.data s.data

def pyEndsWith (s p : String) : Bool := List.isPrefixOf p.data.reverse s.data.reverse

/-- Substring membership, Python's `sub in s` (on char lists). -/
def containsSubL (needle : List Char) : List Char → Bool
  | [] => List.isPrefixOf needle []
  | c :: t => List.isPrefixOf needle (c :: t) || containsSubL needle t

def pyContains (s sub : String) : Bool := containsSubL sub.data s.data

/-- First index at which `needle` occurs in the list, if any. -/
def findSubL (needle : List Char) : List Char → Option Nat
  | [] => if List.isPrefixOf needle [] then some 0 else none
  | c :: t =>
    if List.isPrefixOf needle (c :: t) then some 0
    else (findSubL needle t).map (· + 1)

/-- Python `s.find(sub)`: index of first occurrence or `-1`. -/
def pyFind (s sub : String) : Int :=
  match findSubL sub.data s.data with
  | some n => (n : Int)
  | none => -1

/-- Python `s.find(sub, start)` for a nonnegative `start`. -/
def pyFindFrom (s sub : String) (start : Nat) : Int :=
  match findSubL sub.data (s.data.drop start) with
  | some n => ((n + start : Nat) : Int)
  | none => -1

/-- Python slice `s[a:b]` with a nonnegative `a` and a possibly negative `b`. -/
def pySlice (s : String) (a : Nat) (b : Int) : String :=
  let n := s.data.length
  let b' : Nat := if b < 0 then n - (-b).toNat else min b.toNat n
  ⟨(s.data.take b').drop a⟩

/-- Python `s.split("\n")` (on char lists, accumulator reversed per line). -/
def splitNlL (acc : List Char) : List Char → List (List Char)
  | [] => [acc.reverse]
  | '\n' :: t => acc.reverse :: splitNlL [] t
  | c :: t => splitNlL (c :: acc) t

def splitNl (s : String) : List String := (splitNlL [] s.data).map (⟨·⟩)

/-- Python `s.splitlines(keepends=True)` restricted to the `\n`, `\r\n`,
`\r` terminators that the generated scripts can contain. -/
def splitKeepL (acc : List Char) : List Char → List (List Char)
  | [] => if acc.isEmpty then [] else [acc.reverse]
  | '\r' :: '\n' :: t => (acc.reverse ++ ['\r', '\n']) :: splitKeepL [] t
  | '\r' :: t => (acc.reverse ++ ['\r']) :: splitKeepL [] t
  | '\n' :: t => (acc.reverse ++ ['\n']) :: splitKeepL [] t
  | c :: t => splitKeepL (c :: acc) t

def pySplitLinesKeep (s : String) : List String := (splitKeepL [] s.data).map (⟨·⟩)

def concatStrs (ls : List String) : String := ls.foldr (· ++ ·) ""

/-- Python `s.replace("/", "__")` (used to normalize model names into
path components). -/
def replaceSlashL : List Char → List Char
  | [] => []
  | '/' :: t => '_' :: '_' :: replaceSlashL t
  | c :: t => c :: replaceSlashL t

def replaceSlashes (s : String) : String := ⟨replaceSlashL s.data⟩

/-- Python `" ".join`. -/
def joinSpace : List String → String
  | [] => ""
  | [x] => x
  | x :: y :: xs => x ++ " " ++ joinSpace (y :: xs)

def digitChar (n : Nat) : Char := Char.ofNat (48 + n)

/-- Decimal rendering of a natural number (fuel-based so the kernel can
evaluate it), as Python's f-string produces for a nonnegative `int`. -/
def natDecAux : Nat → Nat → List Char
  | 0, _ => []
  | f + 1, n =>
    if n < 10 then [digitChar n]
    else natDecAux f (n / 10) ++ [digitChar (n % 10)]

def natDecL (n : Nat) : List Char := natDecAux (n + 1) n

def natDec (n : Nat) : String := ⟨natDecL n⟩

/-- Whether a string is all Python whitespace (so `s.strip()` is empty). -/
def allWS (s : String) : Bool := s.data.all isPyWS

/-! ### Constants (`swebench/harness/constants/__init__.py`) -/

def RUN_EVALUATION_LOG_DIR : List String := ["logs", "run_evaluation"]
def LOG_REPORT : String := "report.json"
def LOG_TEST_OUTPUT : String := "test_output_after.txt"
def LOG_TEST_BEFORE_OUTPUT : String := "test_output_before.txt"
def LOG_TEST_BASE_OUTPUT : String := "test_output_base.txt"
def DOCKER_PATCH : String := "/tmp/patch.diff"
def DOCKER_WORKDIR : String := "/testbed"
def APPLY_PATCH_FAIL : String := ">>>>> Patch Apply Failed"
def START_TEST_OUTPUT : String := ">>>>> Start Test Output"
def END_TEST_OUTPUT : String := ">>>>> End Test Output"

/-! ### New-file detection (`run_evaluation.has_new_file_in_patch`)

The Python function splits the diff on lines beginning `diff --git `
(`re.split` with `MULTILINE`), skips whitespace-only pieces, re-attaches
the removed `"diff --git "` prefix, and looks per chunk for a
`new file mode \d+` line or a `--- /dev/null` line together with a
`+++ b/...` line. -/

def isDiffHeaderLine (l : String) : Bool := pyStartsWith l "diff --git "

/-- Matches `^--- /dev/null$` on one line. -/
def isDevNullLine (l : String) : Bool := l == "--- /dev/null"

/-- Matches `^new file mode \d+` on one line. -/
def isNewFileModeLine (l : String) : Bool :=
  pyStartsWith l "new file mode " &&
    (match l.data.drop 14 with
     | [] => false
     | c :: _ => c.isDigit)

/-- Matches `^\+\+\+ b/.*` on one line. -/
def isAddedFileLine (l : String) : Bool := pyStartsWith l "+++ b/"

/-- Split a line list at the lines beginning `diff --git `: returns the
preamble (lines before the first header) and the chunks, each of which
starts with its header line.  Mirrors `re.split(r'^diff --git ', ...)`
followed by re-attachment of the prefix. -/
def splitChunksAux : List String → List String × List (List String)
  | [] => ([], [])
  | l :: ls =>
    let r := splitChunksAux ls
    if isDiffHeaderLine l then ([], (l :: r.1) :: r.2)
    else (l :: r.1, r.2)

/-- The `(new file mode ... or --- /dev/null) and +++ b/...` test that the
source applies to every non-blank chunk. -/
def chunkMatches (c : List String) : Bool :=
  (c.any isNewFileModeLine || c.any isDevNullLine) && c.any isAddedFileLine

/-- A chunk piece is skipped when its text (with the matched
`"diff --git "` separator removed from the header line) strips to empty. -/
def chunkNonblank : List String → Bool
  | [] => false
  | h :: body => !allWS ⟨h.data.drop 11⟩ || body.any (fun l => !allWS l)

/-- The preamble piece (text before the first `diff --git ` line): skipped
when whitespace-only, otherwise examined with the `"diff --git "` prefix
glued onto its first line, exactly as the source's re-attachment does. -/
def preambleMatches : List String → Bool
  | [] => false
  | h :: body =>
    if (h :: body).all allWS then false
    else chunkMatches (("diff --git " ++ h) :: body)

def has_new_file_in_patch (diffText : String) : Bool :=
  let r := splitChunksAux (splitNl diffText)
  preambleMatches r.1 || r.2.any (fun c => chunkNonblank c && chunkMatches c)

/-! ### Heredoc block editor (`remove_git_apply_block`, `replace_git_apply_block`)

A single forward scan over `splitlines(keepends=True)` holding the active
closing delimiter (`none` = not inside a heredoc).  The delimiter is the
text between `<<'` and the next `'` on the trigger line, extracted with
Python `find`/slice semantics. -/

/-- A line that opens a `git apply` heredoc block:
`line.startswith("git apply") and "<<" in line`. -/
def isGitApplyTrigger (l : String) : Bool :=
  pyStartsWith l "git apply" && pyContains l "<<"

/-- `line[line.find("<<'") + 3 : line.find("'", start)]`. -/
def extractDelim (l : String) : String :=
  let start : Nat := (pyFind l "<<'" + 3).toNat
  pySlice l start (pyFindFrom l "'" start)

def removeLinesAux : List String → Option String → List String
  | [], _ => []
  | l :: ls, none =>
    if isGitApplyTrigger l then removeLinesAux ls (some (extractDelim l))
    else l :: removeLinesAux ls none
  | l :: ls, some d =>
    if pyStrip l == d then removeLinesAux ls none
    else removeLinesAux ls (some d)

def remove_git_apply_block (scriptContent : String) : String :=
  concatStrs (removeLinesAux (pySplitLinesKeep scriptContent) none)

/-- `new_content if new_content.endswith('\n') else new_content + '\n'`. -/
def newlineTerminated (s : String) : String :=
  if pyEndsWith s "\n" then s else s ++ "\n"

def replaceLinesAux (newContent : String) : List String → Option String → List String
  | [], _ => []
  | l :: ls, none =>
    if isGitApplyTrigger l then
      l :: newlineTerminated newContent :: replaceLinesAux newContent ls (some (extractDelim l))
    else l :: replaceLinesAux newContent ls none
  | l :: ls, some d =>
    if pyStrip l == d then l :: replaceLinesAux newContent ls none
    else replaceLinesAux newContent ls (some d)

def replace_git_apply_block (scriptContent newContent : String) : String :=
  concatStrs (replaceLinesAux newContent (pySplitLinesKeep scriptContent) none)

/-! ### Inline script embedding (`generate_inline_block`)

Writes a script into the image through a quoted heredoc whose delimiter is
probed: start from `INLINE_SCRIPT` and append `_1`, `_2`, ... until the
token no longer occurs in the (newline-terminated) script. -/

def INLINE_BASE : String := "INLINE_SCRIPT"

/-- The token the probing loop tests at step `i`: the bare base for `i = 0`
(the loop's initial delimiter), `INLINE_SCRIPT_i` afterwards. -/
def tokenAt (i : Nat) : String :=
  if i = 0 then INLINE_BASE else ⟨INLINE_BASE.data ++ '_' :: natDecL i⟩

/-- `script if script.endswith("\n") else script + "\n"`. -/
def normScript (script : String) : String :=
  if pyEndsWith script "\n" then script else script ++ "\n"

theorem containsSubL_length_le {needle hay : List Char}
    (h : containsSubL needle hay = true) : needle.length ≤ hay.length := by
  induction hay with
  | nil =>
    simp only [containsSubL] at h
    have := List.isPrefixOf_iff_prefix.mp h
    simpa using this.length_le
  | cons c t ih =>
    simp only [containsSubL, Bool.or_eq_true] at h
    rcases h with h | h
    · exact (List.isPrefixOf_iff_prefix.mp h).length_le
    · exact Nat.le_trans (ih h) (by simp)

theorem natDecAux_fuel_irrelevant :
    ∀ f1 f2 n, n < f1 → n < f2 → natDecAux f1 n = natDecAux f2 n := by
  intro f1
  induction f1 with
  | zero => intro f2 n h1; exact absurd h1 (Nat.not_lt_zero n)
  | succ f ih =>
    intro f2 n h1 h2
    match f2, h2 with
    | g + 1, h2 =>
      simp only [natDecAux]
      by_cases hn : n < 10
      · simp [hn]
      · have hge : 10 ≤ n := Nat.le_of_not_lt hn
        have hd : n / 10 < n := Nat.div_lt_self (Nat.lt_of_lt_of_le (by decide) hge) (by decide)
        have h1' : n / 10 < f := Nat.lt_of_lt_of_le hd (Nat.le_of_lt_succ h1)
        have h2' : n / 10 < g := Nat.lt_of_lt_of_le hd (Nat.le_of_lt_succ h2)
        simp only [hn, if_false]
        rw [ih g (n / 10) h1' h2']

theorem natDecL_pow_len_ge : ∀ k, k + 1 ≤ (natDecL (10 ^ k)).length := by
  intro k
  induction k with
  | zero => decide
  | succ k ih =>
    have hge : 10 ≤ 10 ^ (k + 1) := by
      calc 10 = 10 ^ 1 := by decide
        _ ≤ 10 ^ (k + 1) := Nat.pow_le_pow_right (by decide) (by omega)
    have hdiv : 10 ^ (k + 1) / 10 = 10 ^ k := by
      rw [pow_succ]
      exact Nat.mul_div_cancel _ (by decide)
    have hlt : 10 ^ k < 10 ^ (k + 1) := Nat.pow_lt_pow_right (by decide) (by omega)
    unfold natDecL natDecAux
    simp only [Nat.not_lt.mpr hge, if_false, hdiv]
    rw [natDecAux_fuel_irrelevant (10 ^ (k + 1)) (10 ^ k + 1) (10 ^ k) hlt (Nat.lt_succ_self _)]
    have := ih
    unfold natDecL at this
    simp only [List.length_append, List.length_cons, List.length_nil]
    omega

theorem tokenAt_length_gt (L : Nat) : L < (tokenAt (10 ^ L)).data.length := by
  have h1 : 10 ^ L ≠ 0 := Nat.pos_iff_ne_zero.mp (Nat.pos_pow_of_pos L (by decide))
  simp only [tokenAt, h1, if_false]
  have h2 := natDecL_pow_len_ge L
  simp only [List.length_append, List.length_cons]
  have : INLINE_BASE.data.length = 13 := by decide
  omega

/-- The probing loop's guard eventually fails: some token is longer than
the script, hence cannot occur inside it. -/
theorem delim_exists (script : String) :
    ∃ i, pyContains script (tokenAt i) = false := by
  refine ⟨10 ^ script.data.length, ?_⟩
  by_contra h
  have h' : pyContains script (tokenAt (10 ^ script.data.length)) = true := by
    revert h; cases pyContains script (tokenAt (10 ^ script.data.length)) <;> simp
  have hle := containsSubL_length_le h'
  have hgt := tokenAt_length_gt script.data.length
  omega

/-- Index at which the `while delim in script` probe stops: the least `i`
whose token does not occur in the script. -/
def delimIndex (script : String) : Nat :=
  Nat.find (delim_exists script)

def generate_inline_block (script scriptName : String) : String :=
  let scriptN := normScript script
  let delim := tokenAt (delimIndex scriptN)
  "RUN cat <<'" ++ delim ++ "' > /root/" ++ scriptName ++ "\n" ++ scriptN ++
    delim ++ "\n" ++ "RUN chmod +x /root/" ++ scriptName

/-! ### Helper lemmas for the chunk decomposition -/

theorem splitChunksAux_decomp (ls : List String) :
    (splitChunksAux ls).1 ++ (splitChunksAux ls).2.flatten = ls := by
  induction ls with
  | nil => rfl
  | cons l t ih =>
    simp only [splitChunksAux]
    by_cases hl : isDiffHeaderLine l
    · simp [hl, ih]
    · simp [hl, ih]

theorem mem_of_mem_preamble {ls : List String} {l : String}
    (h : l ∈ (splitChunksAux ls).1) : l ∈ ls := by
  have := splitChunksAux_decomp ls
  rw [← this]
  exact List.mem_append_left _ h

theorem mem_of_mem_chunk {ls : List String} {c : List String} {l : String}
    (hc : c ∈ (splitChunksAux ls).2) (hl : l ∈ c) : l ∈ ls := by
  have := splitChunksAux_decomp ls
  rw [← this]
  exact List.mem_append_right _ (List.mem_flatten.mpr ⟨c, hc, hl⟩)

theorem data_append (s t : String) : (s ++ t).data = s.data ++ t.data := by
  cases s; cases t; rfl

theorem isDevNullLine_prefixed (h : String) :
    isDevNullLine ("diff --git " ++ h) = false := by
  simp only [isDevNullLine]
  rw [Bool.eq_false_iff]
  intro hc
  have heq : ("diff --git " ++ h) = "--- /dev/null" := eq_of_beq hc
  have hd : ("diff --git " ++ h).data = "--- /dev/null".data := by rw [heq]
  rw [data_append] at hd
  have h1 : ("diff --git ").data = 'd' :: ("iff --git ").data := rfl
  have h2 : ("--- /dev/null").data = '-' :: ("-- /dev/null").data := rfl
  rw [h1, h2, List.cons_append] at hd
  injection hd with hd1 _
  exact absurd hd1 (by decide)

theorem isNewFileModeLine_prefixed (h : String) :
    isNewFileModeLine ("diff --git " ++ h) = false := by
  simp only [isNewFileModeLine, pyStartsWith, Bool.and_eq_false_iff]
  left
  rw [data_append]
  have h1 : ("diff --git ").data = 'd' :: ("iff --git ").data := rfl
  rw [h1, List.cons_append]
  simp [List.isPrefixOf]

/-- Claim C6: `has_new_file_in_patch` returns true for every diff text one
of whose per-file chunks contains both a no-previous-content marker
(`--- /dev/null` or a `new file mode` line) and an added-file header
(`+++ b/...`), and returns false for every diff touching only existing
files (no line anywhere is a no-previous-content marker, and every `--- `
header is an `--- a/...` header). -/
theorem new_file_detection (s : String) :
    ((∃ c ∈ (splitChunksAux (splitNl s)).2, chunkNonblank c = true ∧
        (c.any isNewFileModeLine = true ∨ c.any isDevNullLine = true) ∧
        c.any isAddedFileLine = true) →
      has_new_file_in_patch s = true)
  ∧ ((∀ l ∈ splitNl s, isDevNullLine l = false ∧ isNewFileModeLine l = false) →
      (∀ l ∈ splitNl s, pyStartsWith l "--- " = true → pyStartsWith l "--- a/" = true) →
      has_new_file_in_patch s = false) := by
  constructor
  · rintro ⟨c, hc, hnb, hm, ha⟩
    simp only [has_new_file_in_patch, Bool.or_eq_true]
    right
    rw [List.any_eq_true]
    refine ⟨c, hc, ?_⟩
    simp only [chunkMatches, hnb, ha, Bool.and_true, Bool.true_and]
    rcases hm with hm | hm <;> simp [hm]
  · intro h1 _h2
    have hchunk : ∀ c ∈ (splitChunksAux (splitNl s)).2, chunkMatches c = false := by
      intro c hc
      simp only [chunkMatches, Bool.and_eq_false_iff]
      left
      rw [Bool.or_eq_false_iff]
      constructor
      · rw [List.any_eq_false]
        intro l hl
        simp [(h1 l (mem_of_mem_chunk hc hl)).2]
      · rw [List.any_eq_false]
        intro l hl
        simp [(h1 l (mem_of_mem_chunk hc hl)).1]
    have hpre : preambleMatches (splitChunksAux (splitNl s)).1 = false := by
      rcases hh : (splitChunksAux (splitNl s)).1 with _ | ⟨h, body⟩
      · rfl
      · simp only [preambleMatches]
        by_cases hws : (h :: body).all allWS = true
        · simp [hws]
        · have hmem : ∀ l ∈ h :: body, l ∈ splitNl s := by
            intro l hl
            exact mem_of_mem_preamble (by rw [hh]; exact hl)
          rw [if_neg hws]
          simp only [chunkMatches, Bool.and_eq_false_iff]
          left
          rw [Bool.or_eq_false_iff]
          constructor
          · rw [List.any_eq_false]
            intro l hl
            rcases List.mem_cons.mp hl with rfl | hl'
            · simp [isNewFileModeLine_prefixed]
            · simp [(h1 l (hmem l (List.mem_cons_of_mem _ hl'))).2]
          · rw [List.any_eq_false]
            intro l hl
            rcases List.mem_cons.mp hl with rfl | hl'
            · simp [isDevNullLine_prefixed]
            · simp [(h1 l (hmem l (List.mem_cons_of_mem _ hl'))).1]
    simp only [has_new_file_in_patch, Bool.or_eq_false_iff]
    refine ⟨hpre, ?_⟩
    rw [List.any_eq_false]
    intro c hc
    simp [hchunk c hc]

theorem new_file_detection_witness :
    has_new_file_in_patch "diff --git a/x b/x\n--- /dev/null\n+++ b/x\n" = true ∧
    has_new_file_in_patch "diff --git a/x b/x\n--- a/x\n+++ b/x\n" = false := by
  constructor
  · exact (new_file_detection "diff --git a/x b/x\n--- /dev/null\n+++ b/x\n").1
      ⟨["diff --git a/x b/x", "--- /dev/null", "+++ b/x", ""], by decide,
        by decide, Or.inr (by decide), by decide⟩
  · exact (new_file_detection "diff --git a/x b/x\n--- a/x\n+++ b/x\n").2
      (by decide) (by decide)

/-- Claim C9: `generate_inline_block` returns one heredoc write instruction
for the newline-terminated script followed by a separate chmod
instruction; the delimiter is the base token when it does not occur in the
script, otherwise the first incremented token that does not occur, so the
chosen delimiter never appears in the embedded body, and the probing loop
terminates (the guard eventually fails) for every script. -/
theorem inline_block_structure (script scriptName : String) :
    generate_inline_block script scriptName =
      "RUN cat <<'" ++ tokenAt (delimIndex (normScript script)) ++ "' > /root/" ++
        scriptName ++ "\n" ++ normScript script ++
        tokenAt (delimIndex (normScript script)) ++ "\n" ++
        "RUN chmod +x /root/" ++ scriptName
  ∧ pyContains (normScript script) (tokenAt (delimIndex (normScript script))) = false
  ∧ (∀ j, j < delimIndex (normScript script) →
      pyContains (normScript script) (tokenAt j) = true)
  ∧ (delimIndex (normScript script) = 0 ↔
      pyContains (normScript script) INLINE_BASE = false)
  ∧ (∃ i, pyContains (normScript script) (tokenAt i) = false) := by
  refine ⟨?_, ?_, ?_, ?_, delim_exists (normScript script)⟩
  · rfl
  · exact Nat.find_spec (delim_exists (normScript script))
  · intro j hj
    have := Nat.find_min (delim_exists (normScript script)) hj
    revert this
    cases pyContains (normScript script) (tokenAt j) <;> simp
  · constructor
    · intro h0
      have := Nat.find_spec (delim_exists (normScript script))
      rw [delimIndex] at h0
      rw [h0] at this
      simpa [tokenAt] using this
    · intro hb
      have h0 : pyContains (normScript script) (tokenAt 0) = false := by
        simpa [tokenAt] using hb
      have := Nat.find_min' (delim_exists (normScript script)) h0
      simp only [delimIndex]
      omega

/-! ### Heredoc editor theorems -/

theorem removeLinesAux_skip_body (d : String) :
    ∀ (B : List String) (dl : String) (R : List String),
      (∀ l ∈ B, pyStrip l ≠ d) → pyStrip dl = d →
      removeLinesAux (B ++ dl :: R) (some d) = removeLinesAux R none := by
  intro B
  induction B with
  | nil =>
    intro dl R _ hdl
    simp only [List.nil_append, removeLinesAux]
    rw [if_pos (by simp [hdl])]
  | cons b t ih =>
    intro dl R hB hdl
    simp only [List.cons_append, removeLinesAux]
    rw [if_neg (by simp [hB b (List.mem_cons_self b t)])]
    exact ih dl R (fun l hl => hB l (List.mem_cons_of_mem _ hl)) hdl

theorem replaceLinesAux_skip_body (nc d : String) :
    ∀ (B : List String) (dl : String) (R : List String),
      (∀ l ∈ B, pyStrip l ≠ d) → pyStrip dl = d →
      replaceLinesAux nc (B ++ dl :: R) (some d) = dl :: replaceLinesAux nc R none := by
  intro B
  induction B with
  | nil =>
    intro dl R _ hdl
    simp only [List.nil_append, replaceLinesAux]
    rw [if_pos (by simp [hdl])]
  | cons b t ih =>
    intro dl R hB hdl
    simp only [List.cons_append, replaceLinesAux]
    rw [if_neg (by simp [hB b (List.mem_cons_self b t)])]
    exact ih dl R (fun l hl => hB l (List.mem_cons_of_mem _ hl)) hdl

/-- Claim C7: on a well-formed script (every `git apply` heredoc trigger is
eventually followed by a line stripping to the quoted delimiter), the
remover drops the trigger line and every body line through the matching
delimiter line and copies every other line verbatim; in particular the
claimed concrete example holds. -/
theorem remove_heredoc_block (P B R : List String) (t dl : String)
    (hP : ∀ l ∈ P, isGitApplyTrigger l = false)
    (ht : isGitApplyTrigger t = true)
    (hB : ∀ l ∈ B, pyStrip l ≠ extractDelim t)
    (hdl : pyStrip dl = extractDelim t) :
    removeLinesAux (P ++ t :: (B ++ dl :: R)) none = P ++ removeLinesAux R none
  ∧ remove_git_apply_block
      "echo before\ngit apply --verbose <<'EOF_X'\nfoo\nEOF_X\necho after\n" =
      "echo before\necho after\n" := by
  refine ⟨?_, by decide⟩
  induction P with
  | nil =>
    simp only [List.nil_append, removeLinesAux]
    rw [if_pos ht]
    exact removeLinesAux_skip_body (extractDelim t) B dl R hB hdl
  | cons p ps ih =>
    have hp := hP p (List.mem_cons_self p ps)
    simp only [List.cons_append, removeLinesAux]
    rw [if_neg (by simp [hp])]
    simp only [List.append_eq]
    rw [ih (fun l hl => hP l (List.mem_cons_of_mem _ hl))]

theorem remove_heredoc_block_witness :
    removeLinesAux (["echo a\n"] ++ "git apply <<'D'\n" :: (["x\n"] ++ "D\n" :: ["echo b\n"])) none =
      ["echo a\n"] ++ removeLinesAux ["echo b\n"] none
  ∧ remove_git_apply_block
      "echo before\ngit apply --verbose <<'EOF_X'\nfoo\nEOF_X\necho after\n" =
      "echo before\necho after\n" :=
  remove_heredoc_block ["echo a\n"] ["x\n"] ["echo b\n"] "git apply <<'D'\n" "D\n"
    (by decide) (by decide) (by decide) (by decide)

/-- Claim C8: on a well-formed script, the replacer keeps each trigger
line, inserts the newline-terminated replacement immediately after it,
suppresses the original body, re-emits the delimiter line, and copies all
other lines verbatim; in particular the claimed concrete example holds. -/
theorem replace_heredoc_block (nc : String) (P B R : List String) (t dl : String)
    (hP : ∀ l ∈ P, isGitApplyTrigger l = false)
    (ht : isGitApplyTrigger t = true)
    (hB : ∀ l ∈ B, pyStrip l ≠ extractDelim t)
    (hdl : pyStrip dl = extractDelim t) :
    replaceLinesAux nc (P ++ t :: (B ++ dl :: R)) none =
      P ++ t :: newlineTerminated nc :: dl :: replaceLinesAux nc R none
  ∧ replace_git_apply_block
      "echo before\ngit apply --verbose <<'EOF_X'\nfoo\nEOF_X\necho after\n" "bar\n" =
      "echo before\ngit apply --verbose <<'EOF_X'\nbar\nEOF_X\necho after\n" := by
  refine ⟨?_, by decide⟩
  induction P with
  | nil =>
    simp only [List.nil_append, replaceLinesAux]
    rw [if_pos ht]
    rw [replaceLinesAux_skip_body nc (extractDelim t) B dl R hB hdl]
  | cons p ps ih =>
    have hp := hP p (List.mem_cons_self p ps)
    simp only [List.cons_append, replaceLinesAux]
    rw [if_neg (by simp [hp])]
    simp only [List.append_eq]
    rw [ih (fun l hl => hP l (List.mem_cons_of_mem _ hl))]

theorem replace_heredoc_block_witness :
    replaceLinesAux "y\n" (["echo a\n"] ++ "git apply <<'D'\n" :: (["x\n"] ++ "D\n" :: ["echo b\n"])) none =
      ["echo a\n"] ++ "git apply <<'D'\n" :: newlineTerminated "y\n" :: "D\n" ::
        replaceLinesAux "y\n" ["echo b\n"] none
  ∧ replace_git_apply_block
      "echo before\ngit apply --verbose <<'EOF_X'\nfoo\nEOF_X\necho after\n" "bar\n" =
      "echo before\ngit apply --verbose <<'EOF_X'\nbar\nEOF_X\necho after\n" :=
  replace_heredoc_block "y\n" ["echo a\n"] ["x\n"] ["echo b\n"] "git apply <<'D'\n" "D\n"
    (by decide) (by decide) (by decide) (by decide)

/-! ### Eval-script builders (`test_spec/c.py`, `test_spec/go.py`, `test_spec/ruby.py`)

The three language builders share one statement-list shape; they differ
only in their `get_test_directives`.  `get_modified_files` lives in
`swebench/harness/utils.py`, which is not part of the sources here, so it
is modelled from the spec. -/

def strDrop (s : String) (n : Nat) : String := ⟨s.data.drop n⟩

def strTake (s : String) (n : Nat) : String := ⟨s.data.take n⟩

/-- Modelled from the spec: `get_modified_files` (from the missing
`swebench/harness/utils.py`) returns the files the test patch touches in
their pre-patch state — the `--- a/...` side of each per-file chunk of the
unified diff (a file with no pre-patch content has a `/dev/null` source
and contributes nothing). -/
def get_modified_files (patch : String) : List String :=
  (splitNl patch).filterMap fun l =>
    if pyStartsWith l "--- a/" then some (strDrop l 6) else none

/-- Whether `needle` occurs in `hay` starting exactly at index `i`. -/
def occursAt (needle hay : List Char) (i : Nat) : Bool :=
  List.isPrefixOf needle (hay.drop i)

/-- Greatest index `≤ n` at which `needle` occurs. -/
def lastPosAux (needle hay : List Char) : Nat → Option Nat
  | 0 => if occursAt needle hay 0 then some 0 else none
  | n + 1 => if occursAt needle hay (n + 1) then some (n + 1) else lastPosAux needle hay n

/-- Greatest index `≥ lo` at which `needle` occurs in `hay`, if any. -/
def lastPosFrom (needle hay : List Char) (lo : Nat) : Option Nat :=
  match lastPosAux needle hay hay.length with
  | some j => if lo ≤ j then some j else none
  | none => none

/-- One line's contribution to `re.findall(r"diff --git a/.* b/(.*)", patch)`:
the pattern cannot cross a newline, anchors at the first `diff --git a/`
occurrence, lets the greedy `.*` backtrack to the last ` b/`, and captures
the rest of the line. -/
def diffHeaderCapture (l : String) : Option String :=
  match findSubL ("diff --git a/").data l.data with
  | none => none
  | some i =>
    match lastPosFrom (" b/").data l.data (i + 13) with
    | none => none
    | some j => some (strDrop l (j + 3))

def findallDiffCaptures (patch : String) : List String :=
  (splitNl patch).filterMap diffHeaderCapture

/-- `os.path.dirname` for POSIX paths. -/
def dirname (p : String) : String :=
  match lastPosFrom ['/'] p.data 0 with
  | none => ""
  | some j =>
    let head := p.data.take (j + 1)
    if head.all (· == '/') then ⟨head⟩ else ⟨(head.reverse.dropWhile (· == '/')).reverse⟩

/-- Lexicographic (code-point) comparison, Python's `<` on `str`. -/
def ltCharList : List Char → List Char → Bool
  | [], [] => false
  | [], _ :: _ => true
  | _ :: _, [] => false
  | a :: as, b :: bs => if a < b then true else if b < a then false else ltCharList as bs

def ltStr (a b : String) : Bool := ltCharList a.data b.data

/-- Insert into a sorted duplicate-free list, Python's `sorted(set(...))`
built incrementally. -/
def insertSorted (x : String) : List String → List String
  | [] => [x]
  | y :: ys =>
    if x == y then y :: ys
    else if ltStr x y then x :: y :: ys
    else y :: insertSorted x ys

def sortedDedup (l : List String) : List String := l.foldr insertSorted []

structure InstanceL where
  instance_id : String
  test_patch : String

structure SpecsL where
  build : Option (List String)
  test_cmd : Option String
  no_test_directives : Bool

/-- `test_spec/c.py` `get_test_directives`: not supported yet. -/
def get_test_directives_c (_ : InstanceL) : List String := []

/-- `test_spec/go.py` `get_test_directives`: changed `.go` test files from
the test patch, normalized to package directories, sorted and deduped. -/
def get_test_directives_go (inst : InstanceL) : List String :=
  let changedPaths := findallDiffCaptures inst.test_patch
  let testPaths := changedPaths.filter fun p =>
    pyEndsWith p ".go" &&
      (pyContains p "_test.go" || pyContains p "test" || pyContains p "/test/")
  if testPaths.isEmpty then []
  else
    sortedDedup (testPaths.map fun p =>
      if dirname p == "" then "." else "./" ++ dirname p)

def NON_TEST_EXTS_RUBY : List String :=
  [".md", ".txt", ".png", ".jpg", ".gif", ".svg", ".json", ".yml", ".yaml", ".xml"]

/-- `test_spec/ruby.py` `get_test_directives`: changed files from the test
patch minus non-test extensions. -/
def get_test_directives_ruby (inst : InstanceL) : List String :=
  (findallDiffCaptures inst.test_patch).filter fun d =>
    !(NON_TEST_EXTS_RUBY.any fun ext => pyEndsWith d ext)

def HEREDOC_DELIMITER : String := "EOF_114329324912"

/-- The shared body of `make_eval_script_list_{c,go,ruby}` (the three
Python functions are line-for-line identical apart from which
`get_test_directives` they call).  Returns `none` when the specs carry no
test command (the Python `" ".join` would fail on `None`). -/
def make_eval_script_list_generic (directivesOf : InstanceL → List String)
    (inst : InstanceL) (specs : SpecsL) (_envName repoDirectory baseCommit testPatch : String)
    (runAllTests : Bool) : Option (List String) :=
  let test_files := get_modified_files testPatch
  let reset_tests_command :=
    if test_files.isEmpty then "echo \"No test files to reset\""
    else "git checkout " ++ baseCommit ++ " " ++ joinSpace test_files
  let build_commands := specs.build.getD []
  let apply_test_patch_command :=
    "git apply --verbose --reject - <<'" ++ HEREDOC_DELIMITER ++ "'\n" ++
      testPatch ++ "\n" ++ HEREDOC_DELIMITER
  match specs.test_cmd with
  | none => none
  | some base_cmd =>
    let directives :=
      if runAllTests || specs.no_test_directives then [] else directivesOf inst
    let test_commands := joinSpace (base_cmd :: directives)
    some ([ "cd " ++ repoDirectory,
            "git config --global --add safe.directory " ++ repoDirectory,
            "cd " ++ repoDirectory,
            reset_tests_command,
            apply_test_patch_command ]
          ++ build_commands
          ++ [ ": '" ++ START_TEST_OUTPUT ++ "'",
               test_commands,
               ": '" ++ END_TEST_OUTPUT ++ "'",
               reset_tests_command ])

def make_eval_script_list_c := make_eval_script_list_generic get_test_directives_c

def make_eval_script_list_go := make_eval_script_list_generic get_test_directives_go

def make_eval_script_list_ruby := make_eval_script_list_generic get_test_directives_ruby

/-! ### Claim C4: eval-script statement sequence -/

def c4_reset_command (baseCommit testPatch : String) : String :=
  if (get_modified_files testPatch).isEmpty then "echo \"No test files to reset\""
  else "git checkout " ++ baseCommit ++ " " ++ joinSpace (get_modified_files testPatch)

def c4_apply_command (testPatch : String) : String :=
  "git apply --verbose --reject - <<'" ++ HEREDOC_DELIMITER ++ "'\n" ++
    testPatch ++ "\n" ++ HEREDOC_DELIMITER

def c4_directives (directivesOf : InstanceL → List String) (inst : InstanceL)
    (specs : SpecsL) (runAllTests : Bool) : List String :=
  if runAllTests || specs.no_test_directives then [] else directivesOf inst

/-- The ordered statement sequence exactly as claim C4 (and §4.1 of the
spec) words it: change directory; mark trusted; reset; apply; build
commands; start sentinel; test command with directives; end sentinel;
reset again — with no second change-directory statement. -/
def c4_claimed_list (dirs : List String) (specs : SpecsL)
    (repoDirectory baseCommit testPatch baseCmd : String) : List String :=
  [ "cd " ++ repoDirectory,
    "git config --global --add safe.directory " ++ repoDirectory,
    c4_reset_command baseCommit testPatch,
    c4_apply_command testPatch ]
  ++ specs.build.getD []
  ++ [ ": '" ++ START_TEST_OUTPUT ++ "'",
       joinSpace (baseCmd :: dirs),
       ": '" ++ END_TEST_OUTPUT ++ "'",
       c4_reset_command baseCommit testPatch ]

/-- The sequence the source actually emits: identical to the claimed one
except that the change-directory statement is emitted a second time
between the trust-marking and the reset. -/
def c4_actual_list (dirs : List String) (specs : SpecsL)
    (repoDirectory baseCommit testPatch baseCmd : String) : List String :=
  [ "cd " ++ repoDirectory,
    "git config --global --add safe.directory " ++ repoDirectory,
    "cd " ++ repoDirectory,
    c4_reset_command baseCommit testPatch,
    c4_apply_command testPatch ]
  ++ specs.build.getD []
  ++ [ ": '" ++ START_TEST_OUTPUT ++ "'",
       joinSpace (baseCmd :: dirs),
       ": '" ++ END_TEST_OUTPUT ++ "'",
       c4_reset_command baseCommit testPatch ]

/-- Claim C4 as stated is false: the C builder's output is not the claimed
nine-statement sequence (the source emits `cd` twice). -/
theorem eval_script_claimed_sequence_counterexample :
    make_eval_script_list_c ⟨"i1", ""⟩ ⟨none, some "make test", false⟩
        "testbed" "/testbed" "abc123" "" true ≠
      some (c4_claimed_list
        (c4_directives get_test_directives_c ⟨"i1", ""⟩ ⟨none, some "make test", false⟩ true)
        ⟨none, some "make test", false⟩ "/testbed" "abc123" "" "make test") := by
  decide

/-- Claim C4 amended: whenever the specs provide a test command, each of
the three builders returns the claimed ordered sequence with the
change-directory statement additionally repeated after the trust-marking,
and the derived directives are empty exactly when full-suite mode is
requested, the specs disable directives, or none are derivable. -/
theorem eval_script_list_structure (inst : InstanceL) (specs : SpecsL)
    (envName repoDirectory baseCommit testPatch : String) (runAllTests : Bool)
    (baseCmd : String) (hc : specs.test_cmd = some baseCmd) :
    make_eval_script_list_c inst specs envName repoDirectory baseCommit testPatch runAllTests =
      some (c4_actual_list (c4_directives get_test_directives_c inst specs runAllTests)
        specs repoDirectory baseCommit testPatch baseCmd)
  ∧ make_eval_script_list_go inst specs envName repoDirectory baseCommit testPatch runAllTests =
      some (c4_actual_list (c4_directives get_test_directives_go inst specs runAllTests)
        specs repoDirectory baseCommit testPatch baseCmd)
  ∧ make_eval_script_list_ruby inst specs envName repoDirectory baseCommit testPatch runAllTests =
      some (c4_actual_list (c4_directives get_test_directives_ruby inst specs runAllTests)
        specs repoDirectory baseCommit testPatch baseCmd)
  ∧ (∀ directivesOf, c4_directives directivesOf inst specs runAllTests = [] ↔
      (runAllTests = true ∨ specs.no_test_directives = true ∨ directivesOf inst = [])) := by
  refine ⟨?_, ?_, ?_, ?_⟩
  · simp only [make_eval_script_list_c, make_eval_script_list_generic, hc,
      c4_actual_list, c4_reset_command, c4_apply_command, c4_directives]
  · simp only [make_eval_script_list_go, make_eval_script_list_generic, hc,
      c4_actual_list, c4_reset_command, c4_apply_command, c4_directives]
  · simp only [make_eval_script_list_ruby, make_eval_script_list_generic, hc,
      c4_actual_list, c4_reset_command, c4_apply_command, c4_directives]
  · intro directivesOf
    simp only [c4_directives]
    by_cases hr : runAllTests <;> by_cases hn : specs.no_test_directives <;>
      simp [hr, hn]

theorem eval_script_list_structure_witness :
    make_eval_script_list_go ⟨"i1", ""⟩ ⟨some ["make build"], some "go test", false⟩
        "testbed" "/testbed" "abc123" "" false =
      some (c4_actual_list
        (c4_directives get_test_directives_go ⟨"i1", ""⟩
          ⟨some ["make build"], some "go test", false⟩ false)
        ⟨some ["make build"], some "go test", false⟩ "/testbed" "abc123" "" "go test") :=
  (eval_script_list_structure ⟨"i1", ""⟩ ⟨some ["make build"], some "go test", false⟩
    "testbed" "/testbed" "abc123" "" false "go test" rfl).2.1

/-! ### Dataset/report gate (`run_evaluation.get_dataset_from_preds`)

The dataset is modelled by its instance ids (the only field the function
reads from an instance is `instance_id`), predictions by records carrying
`instance_id`, `model_name_or_path` and `model_patch`, and the filesystem
by a predicate on path-component lists.  Dataset loading itself is an
external collaborator, so the loaded dataset is a parameter. -/

deriving instance DecidableEq for Except

structure GatePred where
  instanceId : String
  modelName : String
  patch : Option String

def predLookup (preds : List GatePred) (i : String) : Option GatePred :=
  preds.find? fun p => p.instanceId == i

/-- Path of the rewrite-mode gate's test-output probe: note the literal
`test_output.txt` in the source, not `LOG_TEST_OUTPUT`. -/
def testOutputProbePath (runId : String) (p : GatePred) : List String :=
  RUN_EVALUATION_LOG_DIR ++
    [runId, replaceSlashes p.modelName, p.instanceId, "test_output.txt"]

def reportProbePath (runId : String) (p : GatePred) : List String :=
  RUN_EVALUATION_LOG_DIR ++
    [runId, replaceSlashes p.modelName, p.instanceId, LOG_REPORT]

def get_dataset_from_preds (dataset : List String) (instanceIds : List String)
    (preds : List GatePred) (runId : String) (rewriteReports : Bool)
    (excludeCompleted : Bool) (fileExistsF : List String → Bool) :
    Except String (List String) :=
  let predictionIds := preds.map (·.instanceId)
  if predictionIds.any (fun p => !dataset.contains p) then
    Except.error "Some prediction IDs not found in dataset!"
  else
    let ds1 := if !instanceIds.isEmpty then dataset.filter (fun i => instanceIds.contains i)
               else dataset
    if rewriteReports then
      let testOutputIds := ds1.filter fun i =>
        match predLookup preds i with
        | none => false
        | some p => fileExistsF (testOutputProbePath runId p)
      Except.ok (ds1.filter fun i =>
        predictionIds.contains i && testOutputIds.contains i)
    else
      let completedIds := ds1.filter fun i =>
        match predLookup preds i with
        | none => false
        | some p => fileExistsF (reportProbePath runId p)
      let ds2 := if !completedIds.isEmpty && excludeCompleted then
                   ds1.filter (fun i => !completedIds.contains i)
                 else ds1
      let emptyPatchIds :=
        (preds.filter fun p => p.patch == some "" || p.patch == none).map (·.instanceId)
      Except.ok (ds2.filter fun i =>
        predictionIds.contains i && !emptyPatchIds.contains i)

/-- What claim C5 says rewrite mode selects: instances with a prediction,
an existing captured test output, and no existing Report. -/
def c5_claimed_selection (dataset : List String) (preds : List GatePred)
    (runId : String) (fileExistsF : List String → Bool) : List String :=
  dataset.filter fun i =>
    match predLookup preds i with
    | none => false
    | some p =>
      fileExistsF (testOutputProbePath runId p) &&
        !fileExistsF (reportProbePath runId p)

/-- Claim C5 as stated is false: with one instance whose prediction, test
output and Report all exist, rewrite mode still selects it (the source
never consults the Report file in the rewrite branch). -/
theorem rewrite_gate_counterexample :
    get_dataset_from_preds ["i1"] [] [⟨"i1", "m", some "p"⟩] "r" true true
        (fun _ => true) ≠
      Except.ok (c5_claimed_selection ["i1"] [⟨"i1", "m", some "p"⟩] "r"
        (fun _ => true)) := by
  decide

/-- Claim C5 amended: with rewrite-reports mode on (and every prediction
id present in the dataset, so the sanity check passes), the gate returns
exactly the instances that have a prediction and an existing captured
test-output file — regardless of whether a Report already exists. -/
theorem contains_map_instanceId (preds : List GatePred) (i : String) :
    (preds.map (·.instanceId)).contains i = (predLookup preds i).isSome := by
  induction preds with
  | nil => rfl
  | cons p t ih =>
    by_cases hpe : p.instanceId = i
    · subst hpe
      simp [predLookup, List.contains_cons, List.find?_cons_of_pos]
    · have h1 : (p.instanceId == i) = false := beq_eq_false_iff_ne.mpr hpe
      have h2 : (i == p.instanceId) = false := beq_eq_false_iff_ne.mpr (Ne.symm hpe)
      rw [List.map_cons, List.contains_cons, h2, Bool.false_or, predLookup,
        List.find?_cons_of_neg _ (by simp [h1])]
      exact ih

theorem contains_filter_of_mem {l : List String} {q : String → Bool} {i : String}
    (hi : i ∈ l) : (l.filter q).contains i = q i := by
  cases hq : q i
  · rw [Bool.eq_false_iff]
    intro hc
    have hmem : i ∈ l.filter q := List.elem_iff.mp hc
    have := (List.mem_filter.mp hmem).2
    rw [hq] at this
    exact Bool.false_ne_true this
  · exact List.elem_iff.mpr (List.mem_filter.mpr ⟨hi, hq⟩)

/-- Claim C5 amended: with rewrite-reports mode on (and every prediction
id present in the dataset, so the sanity check passes), the gate returns
exactly the instances that have a prediction and an existing captured
test-output file — regardless of whether a Report already exists. -/
theorem rewrite_gate_selection (dataset instanceIds : List String)
    (preds : List GatePred) (runId : String) (excludeCompleted : Bool)
    (fileExistsF : List String → Bool)
    (h : ∀ p ∈ preds, p.instanceId ∈ dataset) :
    get_dataset_from_preds dataset instanceIds preds runId true excludeCompleted fileExistsF =
      Except.ok ((if !instanceIds.isEmpty then
          dataset.filter (fun i => instanceIds.contains i) else dataset).filter
        fun i =>
          match predLookup preds i with
          | none => false
          | some p => fileExistsF (testOutputProbePath runId p)) := by
  have hguard : (preds.map (·.instanceId)).any (fun p => !dataset.contains p) = false := by
    rw [List.any_eq_false]
    intro x hx
    rcases List.mem_map.mp hx with ⟨p, hp, rfl⟩
    simp only [Bool.not_eq_true', Bool.not_eq_false]
    exact List.elem_iff.mpr (h p hp)
  simp only [get_dataset_from_preds, hguard, Bool.false_eq_true, if_false,
    eq_self_iff_true, if_true]
  congr 1
  apply List.filter_congr
  intro i hi
  rw [contains_map_instanceId]
  rcases hl : predLookup preds i with _ | p
  · simp [hl]
  · simp only [hl, Option.isSome_some, Bool.true_and]
    rw [contains_filter_of_mem hi]
    simp [hl]

theorem rewrite_gate_selection_witness :
    get_dataset_from_preds ["i1"] [] [⟨"i1", "m", some "p"⟩] "r" true true
        (fun _ => true) =
      Except.ok ((if !(([] : List String)).isEmpty then
          (["i1"].filter fun i => ([] : List String).contains i) else ["i1"]).filter
        fun i =>
          match predLookup [⟨"i1", "m", some "p"⟩] i with
          | none => false
          | some p => (fun _ => true) (testOutputProbePath "r" p)) :=
  rewrite_gate_selection ["i1"] [] [⟨"i1", "m", some "p"⟩] "r" true (fun _ => true)
    (by decide)

/-! ### Module-level dataset loading (`constants/__init__.py`, `log_parsers/__init__.py`)

Both modules guard their file-based dataset loading with
`dataset_path and dataset_path.endswith(".json") and dataset_path.endswith(".jsonl")`.
The parsed file contents and the built-in parser table live behind
external collaborators (the `json` module, the per-language parser
modules), so they are parameters of the model. -/

/-- The two-suffix guard of the file-loading branch, including Python's
truthiness test on the CLI string. -/
def datasetGuard (datasetPath : Option String) : Bool :=
  match datasetPath with
  | none => false
  | some p => !(p == "") && pyEndsWith p ".json" && pyEndsWith p ".jsonl"

structure DatasetRec where
  repo : String
  instance_id : String
  language : String
  spec_dict : SpecsL

/-- The module-level `dataset` list: the parsed file when the guard holds,
otherwise the initial empty list. -/
def constantsLoadedDataset (datasetPath : Option String)
    (fileInstances : List DatasetRec) : List DatasetRec :=
  if datasetGuard datasetPath then fileInstances else []

def LANGUAGES_STR_MAP : List (String × String) :=
  [("C", "c"), ("C++", "c"), ("Go", "go"), ("Java", "java"),
   ("JavaScript", "js"), ("TypeScript", "ts"), ("PHP", "php"),
   ("Python", "py"), ("Ruby", "rb"), ("Rust", "rs"), ("C#", "cs")]

def get_ext_from_language (language : String) : String :=
  ((LANGUAGES_STR_MAP.find? fun kv => kv.1 == language).map (·.2)).getD "unknown"

/-- `instance["instance_id"].split("-")[-1]`. -/
def prNumber (instId : String) : String :=
  match (instId.data.splitOn '-').getLast? with
  | some l => ⟨l⟩
  | none => ""

def assocUpdate (m : List (String × List (String × SpecsL))) (repo pr : String)
    (specs : SpecsL) : List (String × List (String × SpecsL)) :=
  match m.find? (fun kv => kv.1 == repo) with
  | none => m ++ [(repo, [(pr, specs)])]
  | some _ => m.map fun kv => if kv.1 == repo then (kv.1, kv.2 ++ [(pr, specs)]) else kv

/-- The fold that `constants/__init__.py` runs over the module-level
`dataset` to build `MAP_REPO_VERSION_TO_SPECS`. -/
def buildRepoVersionToSpecs (ds : List DatasetRec) :
    List (String × List (String × SpecsL)) :=
  ds.foldl (fun m inst => assocUpdate m inst.repo (prNumber inst.instance_id) inst.spec_dict) []

/-- The companion fold building `MAP_REPO_TO_EXT`. -/
def buildRepoToExt (ds : List DatasetRec) : List (String × String) :=
  ds.foldl (fun m inst =>
    match m.find? (fun kv => kv.1 == inst.repo) with
    | none => m ++ [(inst.repo, get_ext_from_language inst.language)]
    | some _ => m) []

def MAP_REPO_VERSION_TO_SPECS (datasetPath : Option String)
    (fileInstances : List DatasetRec) : List (String × List (String × SpecsL)) :=
  buildRepoVersionToSpecs (constantsLoadedDataset datasetPath fileInstances)

def MAP_REPO_TO_EXT (datasetPath : Option String)
    (fileInstances : List DatasetRec) : List (String × String) :=
  buildRepoToExt (constantsLoadedDataset datasetPath fileInstances)

/-- `log_parsers/__init__.py`: the repo-to-parser map is built from the
file-loaded dataset when the guard holds, otherwise it is the merge of the
built-in per-language tables (an external collaborator here, so a
parameter; parsers are identified by name). -/
def MAP_REPO_TO_PARSER (datasetPath : Option String)
    (fromFile : List (String × String)) (builtin : List (String × String)) :
    List (String × String) :=
  if datasetGuard datasetPath then fromFile else builtin

theorem endsWith_json_jsonl_false (p : String) :
    (pyEndsWith p ".json" && pyEndsWith p ".jsonl") = false := by
  rcases hd : p.data.reverse with _ | ⟨c, t⟩
  · simp [pyEndsWith, hd, List.isPrefixOf]
  · simp only [pyEndsWith, hd]
    have h1 : (".json").data.reverse = 'n' :: ['o', 's', 'j', '.'] := by decide
    have h2 : (".jsonl").data.reverse = 'l' :: ['n', 'o', 's', 'j', '.'] := by decide
    rw [h1, h2]
    simp only [List.isPrefixOf, Bool.and_eq_false_iff]
    by_cases hn : c = 'n'
    · right
      subst hn
      simp
    · left
      have hb : ('n' == c) = false := beq_eq_false_iff_ne.mpr fun hh => hn hh.symm
      simp [hb]

/-- Claim C10: the file-loading guard (ends with `.json` and with
`.jsonl`) is unsatisfiable, so the module-level dataset stays empty,
`MAP_REPO_VERSION_TO_SPECS` and `MAP_REPO_TO_EXT` are empty for every
dataset path and file contents, and the repo-to-parser map is always the
built-in table. -/
theorem dataset_file_guard_unsat :
    (∀ p : String, (pyEndsWith p ".json" && pyEndsWith p ".jsonl") = false)
  ∧ (∀ dp, datasetGuard dp = false)
  ∧ (∀ dp fileInstances, constantsLoadedDataset dp fileInstances = []
      ∧ MAP_REPO_VERSION_TO_SPECS dp fileInstances = []
      ∧ MAP_REPO_TO_EXT dp fileInstances = [])
  ∧ (∀ dp fromFile builtin, MAP_REPO_TO_PARSER dp fromFile builtin = builtin) := by
  have hg : ∀ dp, datasetGuard dp = false := by
    intro dp
    rcases dp with _ | p
    · rfl
    · simp only [datasetGuard, Bool.and_assoc]
      rw [endsWith_json_jsonl_false p]
      simp
  refine ⟨endsWith_json_jsonl_false, hg, ?_, ?_⟩
  · intro dp fileInstances
    have he : constantsLoadedDataset dp fileInstances = [] := by
      simp [constantsLoadedDataset, hg dp]
    exact ⟨he, by simp [MAP_REPO_VERSION_TO_SPECS, he, buildRepoVersionToSpecs],
      by simp [MAP_REPO_TO_EXT, he, buildRepoToExt]⟩
  · intro dp fromFile builtin
    simp [MAP_REPO_TO_PARSER, hg dp]

/-! ### Container execution unit (`run_evaluation.run_instance`)

The unit is embedded as a function from an environment (the outcomes the
container engine and filesystem would supply) to a trace of externally
visible operations plus the returned value.  Exceptions are modelled by
explicit control flow: `EvaluationError`/`BuildImageError`/any other
exception raised inside the `try` block is caught (result `none`), the
`finally` cleanup is appended unconditionally, and the only uncaught exit
is the `ValueError` of rewrite mode, which happens before the `try`.

`json.loads`, `get_eval_report` and the eval-script fields of the compiled
`TestSpec` are external collaborators (grading, `test_spec.py` are not in
the sources), so report parsing is an opaque wrapper, the graded report is
supplied by the environment, and the two eval scripts (the scoped one and
the recomputed run-all-tests one) are fields of the test-spec model. -/

structure JsonVal where
  raw : String
  deriving DecidableEq

def jsonLoads (s : String) : JsonVal := ⟨s⟩

structure ExecResult where
  exitCode : Int
  output : String

structure RunEnv where
  reportExists : Bool
  reportText : String
  testOutputExists : Bool
  symlinkExists : Bool
  buildOk : Bool
  gradedReport : String
  execRes : Nat → ExecResult
  execT : Nat → String × Bool

structure TestSpecL where
  instanceId : String
  evalScript : String
  evalScriptAllTests : String
  instanceImageKey : String
  isRemoteImage : Bool
  testPatch : String

structure PredL where
  instanceId : String
  modelName : Option String
  patch : Option String

inductive Op where
  | writeFile (path : List String) (content : String)
  | symlink (path : List String)
  | mkdirLogDir
  | setupLogger
  | buildContainer
  | startContainer
  | copyToContainer (localPath : List String) (remotePath : String)
  | execRun (cmd : String)
  | execRunWithTimeout (cmd : String) (timeout : Nat)
  | stopRemoveContainer
  | removeImage (imageKey : String)
  | closeLogger
  deriving DecidableEq

/-- Container/image operations in the sense of claim C1: build, start,
copy, exec, stop/remove of the container, image removal. -/
def isContainerOp : Op → Bool
  | .buildContainer => true
  | .startContainer => true
  | .copyToContainer _ _ => true
  | .execRun _ => true
  | .execRunWithTimeout _ _ => true
  | .stopRemoveContainer => true
  | .removeImage _ => true
  | _ => false

def GIT_APPLY_CMDS : List String :=
  [ "git apply --verbose",
    "patch -N --batch --fuzz=5 -p1 -i",
    "git apply --verbose --ignore-whitespace" ]

def resetCmd : String := "/bin/bash -c 'git reset --hard HEAD && git clean -fd'"

def logDirOf (runId model instId : String) : List String :=
  RUN_EVALUATION_LOG_DIR ++ [runId, model, instId]

/-- `f"\n\nTimeout error: {timeout} seconds exceeded."` -/
def timeoutMsg (timeout : Nat) : String :=
  "\n\nTimeout error: " ++ natDec timeout ++ " seconds exceeded."

/-- The patch-apply fallback loop of `run_tests_on_after`: iterate over
the apply commands with index `i`; before every attempt but the first,
exec the working-tree reset; stop at the first zero exit; when the list is
exhausted, fail carrying the last command's captured output.  `cnt`
numbers the `exec_run` calls (the environment supplies the result of the
`k`-th call as `env.execRes k`). -/
def gitApplyLoop (env : RunEnv) :
    List String → Nat → Nat → String → List Op × Nat × Option String
  | [], cnt, _, lastOut => ([], cnt, some lastOut)
  | cmd :: rest, cnt, i, _ =>
    let resetSteps : List Op × Nat :=
      if 0 < i then ([Op.execRun resetCmd], cnt + 1) else ([], cnt)
    let r := env.execRes resetSteps.2
    let attemptOps := resetSteps.1 ++ [Op.execRun (cmd ++ " " ++ DOCKER_PATCH)]
    if r.exitCode == 0 then (attemptOps, resetSteps.2 + 1, none)
    else
      let rec2 := gitApplyLoop env rest (resetSteps.2 + 1) (i + 1) r.output
      (attemptOps ++ rec2.1, rec2.2.1, rec2.2.2)

/-- `run_tests_on_base`: write the base eval script (heredoc blocks
removed), copy it in, run under timeout, persist output (with the timeout
annotation when timed out), raising `EvaluationError` on timeout. -/
def runTestsOnBase (env : RunEnv) (ldir : List String) (script : String)
    (timeout cntT : Nat) : List Op × Nat × Bool :=
  let baseScript := remove_git_apply_block script
  let setupOps := [ Op.writeFile (ldir ++ ["base_eval.sh"]) baseScript,
                    Op.copyToContainer (ldir ++ ["base_eval.sh"]) "/eval.sh" ]
  let res := env.execT cntT
  let content := if res.2 then res.1 ++ timeoutMsg timeout else res.1
  (setupOps ++ [ Op.execRunWithTimeout "/bin/bash /eval.sh" timeout,
                 Op.writeFile (ldir ++ [LOG_TEST_BASE_OUTPUT]) content ],
   cntT + 1, !res.2)

/-- `run_tests_on_before`: same shape with the unmodified eval script and
the before-output file. -/
def runTestsOnBefore (env : RunEnv) (ldir : List String) (script : String)
    (timeout cntT : Nat) : List Op × Nat × Bool :=
  let setupOps := [ Op.writeFile (ldir ++ ["eval.sh"]) script,
                    Op.copyToContainer (ldir ++ ["eval.sh"]) "/eval.sh" ]
  let res := env.execT cntT
  let content := if res.2 then res.1 ++ timeoutMsg timeout else res.1
  (setupOps ++ [ Op.execRunWithTimeout "/bin/bash /eval.sh" timeout,
                 Op.writeFile (ldir ++ [LOG_TEST_BEFORE_OUTPUT]) content ],
   cntT + 1, !res.2)

/-- `run_tests_on_after`: persist and copy the eval script and the
candidate patch, run the apply fallback chain, capture the pre-run diff,
run the tests under timeout, persist output (with annotation on timeout,
then raise), capture the post-run diff.  Returns the operations, the next
`exec_run` and `exec_run_with_timeout` indices, and whether the run
completed without raising. -/
def runTestsOnAfter (env : RunEnv) (ldir : List String) (script : String)
    (patch : Option String) (timeout cntE cntT : Nat) :
    List Op × Nat × Nat × Bool :=
  let setupOps :=
    [ Op.writeFile (ldir ++ ["eval.sh"]) script,
      Op.copyToContainer (ldir ++ ["eval.sh"]) "/eval.sh",
      Op.writeFile (ldir ++ ["patch.diff"]) (patch.getD ""),
      Op.copyToContainer (ldir ++ ["patch.diff"]) DOCKER_PATCH ]
  let ap := gitApplyLoop env GIT_APPLY_CMDS cntE 0 ""
  match ap.2.2 with
  | some _ => (setupOps ++ ap.1, ap.2.1, cntT, false)
  | none =>
    let diffBefore := [Op.execRun "git -c core.fileMode=false diff"]
    let res := env.execT cntT
    let content := if res.2 then res.1 ++ timeoutMsg timeout else res.1
    let testOps := [ Op.execRunWithTimeout "/bin/bash /eval.sh" timeout,
                     Op.writeFile (ldir ++ [LOG_TEST_OUTPUT]) content ]
    if res.2 then
      (setupOps ++ ap.1 ++ diffBefore ++ testOps, ap.2.1 + 1, cntT + 1, false)
    else
      (setupOps ++ ap.1 ++ diffBefore ++ testOps ++
         [Op.execRun "git -c core.fileMode=false diff"],
       ap.2.1 + 2, cntT + 1, true)

/-- The `try` block of `run_instance`: build and start the container, run
the gold-only base/before passes, run the main pass, grade, persist the
report.  Result `none` models a caught exception. -/
def runBody (env : RunEnv) (ts : TestSpecL) (pred : PredL) (model : String)
    (ldir reportPath : List String) (timeout : Nat) :
    List Op × Option (String × JsonVal) :=
  if !env.buildOk then ([Op.buildContainer], none)
  else
    let startOps := [Op.buildContainer, Op.startContainer]
    let hasNew := has_new_file_in_patch ts.testPatch
    let afterScript := if hasNew then ts.evalScriptAllTests else ts.evalScript
    let finish : List Op → (List Op × Nat × Nat × Bool) → List Op × Option (String × JsonVal) :=
      fun prev r =>
        if !r.2.2.2 then (startOps ++ prev ++ r.1, none)
        else
          (startOps ++ prev ++ r.1 ++ [Op.writeFile reportPath env.gradedReport],
           some (ts.instanceId, jsonLoads env.gradedReport))
    if model == "gold" then
      let baseScript := if hasNew then ts.evalScriptAllTests else ts.evalScript
      let b := runTestsOnBase env ldir baseScript timeout 0
      if !b.2.2 then (startOps ++ b.1, none)
      else
        let f := runTestsOnBefore env ldir ts.evalScript timeout b.2.1
        if !f.2.2 then (startOps ++ b.1 ++ f.1, none)
        else finish (b.1 ++ f.1) (runTestsOnAfter env ldir afterScript pred.patch timeout 0 f.2.1)
    else
      finish [] (runTestsOnAfter env ldir afterScript pred.patch timeout 0 0)

/-- `run_instance`: rewrite-mode branch, report-existence gate, then the
`try`/`except`/`finally` body.  The result is `Except.error` for the
uncaught rewrite-mode `ValueError`, `Except.ok none` when a caught
exception suppressed the report, and `Except.ok (some (instance_id,
report))` on the two success paths. -/
def runInstance (env : RunEnv) (ts : TestSpecL) (pred : PredL) (rmImage : Bool)
    (runId : String) (timeout : Nat) (rewriteReports : Bool) :
    List Op × Except String (Option (String × JsonVal)) :=
  let model := replaceSlashes (pred.modelName.getD "None")
  let ldir := logDirOf runId model ts.instanceId
  let reportPath := ldir ++ [LOG_REPORT]
  if rewriteReports then
    if !env.testOutputExists then ([], Except.error "Test output file does not exist")
    else
      ([Op.writeFile reportPath env.gradedReport],
       Except.ok (some (ts.instanceId, jsonLoads env.gradedReport)))
  else if env.reportExists then
    ([], Except.ok (some (ts.instanceId, jsonLoads env.reportText)))
  else
    let pre :=
      (if ts.isRemoteImage then []
       else if env.symlinkExists then []
       else [Op.symlink (ldir ++ ["image_build_dir"])]) ++
      [Op.mkdirLogDir, Op.setupLogger]
    let body := runBody env ts pred model ldir reportPath timeout
    let cleanupOps :=
      [Op.stopRemoveContainer] ++
      (if rmImage then [Op.removeImage ts.instanceImageKey] else []) ++
      [Op.closeLogger]
    (pre ++ body.1 ++ cleanupOps, Except.ok body.2)

/-- Claim C1: with rewrite-reports off and an existing report file,
`run_instance` returns the instance id paired with the parsed contents of
the existing report, and its trace holds no operation at all — in
particular no container or image operation (build, start, copy, exec,
stop, removal). -/
theorem report_exists_short_circuit (env : RunEnv) (ts : TestSpecL) (pred : PredL)
    (rmImage : Bool) (runId : String) (timeout : Nat)
    (h : env.reportExists = true) :
    runInstance env ts pred rmImage runId timeout false =
      ([], Except.ok (some (ts.instanceId, jsonLoads env.reportText)))
  ∧ ∀ op ∈ (runInstance env ts pred rmImage runId timeout false).1,
      isContainerOp op = false := by
  have h1 : runInstance env ts pred rmImage runId timeout false =
      ([], Except.ok (some (ts.instanceId, jsonLoads env.reportText))) := by
    simp [runInstance, h]
  refine ⟨h1, ?_⟩
  rw [h1]
  intro op hop
  simp at hop

theorem report_exists_short_circuit_witness :
    runInstance
        ⟨true, "rep", false, false, true, "", fun _ => ⟨0, ""⟩, fun _ => ("", false)⟩
        ⟨"i1", "s", "sa", "k", false, ""⟩ ⟨"i1", some "m", some "p"⟩ true "r" 5 false =
      ([], Except.ok (some ("i1", jsonLoads "rep"))) :=
  (report_exists_short_circuit
    ⟨true, "rep", false, false, true, "", fun _ => ⟨0, ""⟩, fun _ => ("", false)⟩
    ⟨"i1", "s", "sa", "k", false, ""⟩ ⟨"i1", some "m", some "p"⟩ true "r" 5 rfl).1

/-- Claim C2: the apply chain tries exactly the three commands of
`GIT_APPLY_CMDS` in order (each suffixed with the staged patch path),
execs the working-tree reset before every attempt except the first, stops
at the first zero exit, and only when all three fail reports the failure
carrying the third command's captured output. -/
theorem git_apply_fallback_chain (env : RunEnv) (cnt : Nat) :
    GIT_APPLY_CMDS =
      [ "git apply --verbose",
        "patch -N --batch --fuzz=5 -p1 -i",
        "git apply --verbose --ignore-whitespace" ]
  ∧ gitApplyLoop env GIT_APPLY_CMDS cnt 0 "" =
      (if (env.execRes cnt).exitCode == 0 then
        ([Op.execRun ("git apply --verbose" ++ " " ++ DOCKER_PATCH)], cnt + 1, none)
      else if (env.execRes (cnt + 2)).exitCode == 0 then
        ([ Op.execRun ("git apply --verbose" ++ " " ++ DOCKER_PATCH),
           Op.execRun resetCmd,
           Op.execRun ("patch -N --batch --fuzz=5 -p1 -i" ++ " " ++ DOCKER_PATCH) ],
         cnt + 3, none)
      else if (env.execRes (cnt + 4)).exitCode == 0 then
        ([ Op.execRun ("git apply --verbose" ++ " " ++ DOCKER_PATCH),
           Op.execRun resetCmd,
           Op.execRun ("patch -N --batch --fuzz=5 -p1 -i" ++ " " ++ DOCKER_PATCH),
           Op.execRun resetCmd,
           Op.execRun ("git apply --verbose --ignore-whitespace" ++ " " ++ DOCKER_PATCH) ],
         cnt + 5, none)
      else
        ([ Op.execRun ("git apply --verbose" ++ " " ++ DOCKER_PATCH),
           Op.execRun resetCmd,
           Op.execRun ("patch -N --batch --fuzz=5 -p1 -i" ++ " " ++ DOCKER_PATCH),
           Op.execRun resetCmd,
           Op.execRun ("git apply --verbose --ignore-whitespace" ++ " " ++ DOCKER_PATCH) ],
         cnt + 5, some (env.execRes (cnt + 4)).output)) := by
  refine ⟨rfl, ?_⟩
  cases h1 : (env.execRes cnt).exitCode == 0 <;>
    cases h2 : (env.execRes (cnt + 2)).exitCode == 0 <;>
      cases h3 : (env.execRes (cnt + 4)).exitCode == 0 <;>
        simp [gitApplyLoop, GIT_APPLY_CMDS, h1, h2, h3, add_assoc]

theorem gitApplyLoop_ops_execRun (env : RunEnv) :
    ∀ (cmds : List String) (cnt i : Nat) (lastOut : String) (op : Op),
      op ∈ (gitApplyLoop env cmds cnt i lastOut).1 → ∃ cmd, op = Op.execRun cmd := by
  intro cmds
  induction cmds with
  | nil =>
    intro cnt i lastOut op hop
    simp [gitApplyLoop] at hop
  | cons c rest ih =>
    intro cnt i lastOut op hop
    by_cases hi : 0 < i
    · by_cases hz : ((env.execRes (cnt + 1)).exitCode == 0) = true
      · simp [gitApplyLoop, hi, hz] at hop
        rcases hop with rfl | rfl
        · exact ⟨_, rfl⟩
        · exact ⟨_, rfl⟩
      · simp [gitApplyLoop, hi, hz] at hop
        rcases hop with rfl | rfl | hop
        · exact ⟨_, rfl⟩
        · exact ⟨_, rfl⟩
        · exact ih _ _ _ _ hop
    · by_cases hz : ((env.execRes cnt).exitCode == 0) = true
      · simp [gitApplyLoop, hi, hz] at hop
        exact ⟨_, hop⟩
      · simp [gitApplyLoop, hi, hz] at hop
        rcases hop with rfl | hop
        · exact ⟨_, rfl⟩
        · exact ih _ _ _ _ hop

/-- Claim C3: whenever the post-patch test execution's exec call reports a
timeout — for a gold or a non-gold prediction (for gold, provided the
baseline and pre-patch runs themselves completed, else the post-patch run
is never reached), and after the candidate patch was applied by any of the
fallback attempts — the unit persists the captured partial output followed
by the timeout annotation to the per-instance test-output file, produces
no report file at all, returns without a result (the terminal evaluation
error is caught), and the cleanup operations — container stop/remove,
optional image removal, logger release — close the trace. -/
theorem timeout_writes_annotation_and_cleans_up (env : RunEnv) (ts : TestSpecL)
    (pred : PredL) (rmImage : Bool) (runId : String) (timeout : Nat) (out : String)
    (hrep : env.reportExists = false)
    (hbuild : env.buildOk = true)
    (hbase : (replaceSlashes (pred.modelName.getD "None") == "gold") = true →
      (env.execT 0).2 = false)
    (hbefore : (replaceSlashes (pred.modelName.getD "None") == "gold") = true →
      (env.execT 1).2 = false)
    (happly : (gitApplyLoop env GIT_APPLY_CMDS 0 0 "").2.2 = none)
    (htmo : env.execT
      (if replaceSlashes (pred.modelName.getD "None") == "gold" then 2 else 0) =
      (out, true)) :
    (runInstance env ts pred rmImage runId timeout false).2 = Except.ok none
  ∧ Op.writeFile
      (logDirOf runId (replaceSlashes (pred.modelName.getD "None")) ts.instanceId
        ++ [LOG_TEST_OUTPUT]) (out ++ timeoutMsg timeout)
      ∈ (runInstance env ts pred rmImage runId timeout false).1
  ∧ (∀ c, Op.writeFile
      (logDirOf runId (replaceSlashes (pred.modelName.getD "None")) ts.instanceId
        ++ [LOG_REPORT]) c
      ∉ (runInstance env ts pred rmImage runId timeout false).1)
  ∧ ∃ preOps, (runInstance env ts pred rmImage runId timeout false).1 =
      preOps ++ [Op.stopRemoveContainer] ++
      (if rmImage then [Op.removeImage ts.instanceImageKey] else []) ++
      [Op.closeLogger] := by
  rcases hap : gitApplyLoop env GIT_APPLY_CMDS 0 0 "" with ⟨aOps, cntE2, apRes⟩
  have hapres : apRes = none := by rw [hap] at happly; exact happly
  subst hapres
  have haops : ∀ op ∈ aOps, ∃ cmd, op = Op.execRun cmd := by
    intro op hop
    have h := gitApplyLoop_ops_execRun env GIT_APPLY_CMDS 0 0 "" op
    rw [hap] at h
    exact h hop
  have hnorep : ∀ c, Op.writeFile
      (logDirOf runId (replaceSlashes (pred.modelName.getD "None")) ts.instanceId
        ++ [LOG_REPORT]) c ∉ aOps := by
    intro c hc
    rcases haops _ hc with ⟨cmd, hcmd⟩
    exact Op.noConfusion hcmd
  simp only [LOG_REPORT] at hnorep
  cases hgold : replaceSlashes (pred.modelName.getD "None") == "gold" with
  | false =>
    rw [hgold] at htmo
    simp only [Bool.false_eq_true, if_false] at htmo
    have hrun : runInstance env ts pred rmImage runId timeout false =
        (((if ts.isRemoteImage then []
           else if env.symlinkExists then []
           else [Op.symlink (logDirOf runId (replaceSlashes (pred.modelName.getD "None"))
                   ts.instanceId ++ ["image_build_dir"])]) ++
          [Op.mkdirLogDir, Op.setupLogger]) ++
         ([Op.buildContainer, Op.startContainer] ++
          ([ Op.writeFile (logDirOf runId (replaceSlashes (pred.modelName.getD "None"))
               ts.instanceId ++ ["eval.sh"])
               (if has_new_file_in_patch ts.testPatch then ts.evalScriptAllTests
                else ts.evalScript),
             Op.copyToContainer (logDirOf runId (replaceSlashes (pred.modelName.getD "None"))
               ts.instanceId ++ ["eval.sh"]) "/eval.sh",
             Op.writeFile (logDirOf runId (replaceSlashes (pred.modelName.getD "None"))
               ts.instanceId ++ ["patch.diff"]) (pred.patch.getD ""),
             Op.copyToContainer (logDirOf runId (replaceSlashes (pred.modelName.getD "None"))
               ts.instanceId ++ ["patch.diff"]) DOCKER_PATCH ] ++
           aOps ++
           [Op.execRun "git -c core.fileMode=false diff"] ++
           [ Op.execRunWithTimeout "/bin/bash /eval.sh" timeout,
             Op.writeFile (logDirOf runId (replaceSlashes (pred.modelName.getD "None"))
               ts.instanceId ++ [LOG_TEST_OUTPUT]) (out ++ timeoutMsg timeout) ])) ++
         ([Op.stopRemoveContainer] ++
          (if rmImage then [Op.removeImage ts.instanceImageKey] else []) ++
          [Op.closeLogger]),
         Except.ok none) := by
      simp [runInstance, hrep, runBody, hbuild, hgold, runTestsOnAfter, hap, htmo]
    refine ⟨by rw [hrun], by rw [hrun]; simp, ?_, ?_⟩
    · intro c
      rw [hrun]
      cases hri : ts.isRemoteImage <;> cases hsl : env.symlinkExists <;>
        cases hrm : rmImage <;>
          simp [hri, hsl, hrm, List.append_cancel_left_eq, hnorep,
            LOG_REPORT, LOG_TEST_OUTPUT]
    · refine ⟨((if ts.isRemoteImage then []
         else if env.symlinkExists then []
         else [Op.symlink (logDirOf runId (replaceSlashes (pred.modelName.getD "None"))
                 ts.instanceId ++ ["image_build_dir"])]) ++
        [Op.mkdirLogDir, Op.setupLogger]) ++
       ([Op.buildContainer, Op.startContainer] ++
        ([ Op.writeFile (logDirOf runId (replaceSlashes (pred.modelName.getD "None"))
             ts.instanceId ++ ["eval.sh"])
             (if has_new_file_in_patch ts.testPatch then ts.evalScriptAllTests
              else ts.evalScript),
           Op.copyToContainer (logDirOf runId (replaceSlashes (pred.modelName.getD "None"))
             ts.instanceId ++ ["eval.sh"]) "/eval.sh",
           Op.writeFile (logDirOf runId (replaceSlashes (pred.modelName.getD "None"))
             ts.instanceId ++ ["patch.diff"]) (pred.patch.getD ""),
           Op.copyToContainer (logDirOf runId (replaceSlashes (pred.modelName.getD "None"))
             ts.instanceId ++ ["patch.diff"]) DOCKER_PATCH ] ++
         aOps ++
         [Op.execRun "git -c core.fileMode=false diff"] ++
         [ Op.execRunWithTimeout "/bin/bash /eval.sh" timeout,
           Op.writeFile (logDirOf runId (replaceSlashes (pred.modelName.getD "None"))
             ts.instanceId ++ [LOG_TEST_OUTPUT]) (out ++ timeoutMsg timeout) ])), ?_⟩
      rw [hrun]
      simp [List.append_assoc]
  | true =>
    rw [hgold] at htmo
    simp only [if_true] at htmo
    have hb0 : (env.execT 0).2 = false := hbase hgold
    have hb1 : (env.execT 1).2 = false := hbefore hgold
    have hrun : runInstance env ts pred rmImage runId timeout false =
        (((if ts.isRemoteImage then []
           else if env.symlinkExists then []
           else [Op.symlink (logDirOf runId (replaceSlashes (pred.modelName.getD "None"))
                   ts.instanceId ++ ["image_build_dir"])]) ++
          [Op.mkdirLogDir, Op.setupLogger]) ++
         ([Op.buildContainer, Op.startContainer] ++
          (([ Op.writeFile (logDirOf runId (replaceSlashes (pred.modelName.getD "None"))
                ts.instanceId ++ ["base_eval.sh"])
                (remove_git_apply_block
                  (if has_new_file_in_patch ts.testPatch then ts.evalScriptAllTests
                   else ts.evalScript)),
              Op.copyToContainer (logDirOf runId (replaceSlashes (pred.modelName.getD "None"))
                ts.instanceId ++ ["base_eval.sh"]) "/eval.sh",
              Op.execRunWithTimeout "/bin/bash /eval.sh" timeout,
              Op.writeFile (logDirOf runId (replaceSlashes (pred.modelName.getD "None"))
                ts.instanceId ++ [LOG_TEST_BASE_OUTPUT]) (env.execT 0).1 ] ++
            [ Op.writeFile (logDirOf runId (replaceSlashes (pred.modelName.getD "None"))
                ts.instanceId ++ ["eval.sh"]) ts.evalScript,
              Op.copyToContainer (logDirOf runId (replaceSlashes (pred.modelName.getD "None"))
                ts.instanceId ++ ["eval.sh"]) "/eval.sh",
              Op.execRunWithTimeout "/bin/bash /eval.sh" timeout,
              Op.writeFile (logDirOf runId (replaceSlashes (pred.modelName.getD "None"))
                ts.instanceId ++ [LOG_TEST_BEFORE_OUTPUT]) (env.execT 1).1 ]) ++
           ([ Op.writeFile (logDirOf runId (replaceSlashes (pred.modelName.getD "None"))
                ts.instanceId ++ ["eval.sh"])
                (if has_new_file_in_patch ts.testPatch then ts.evalScriptAllTests
                 else ts.evalScript),
              Op.copyToContainer (logDirOf runId (replaceSlashes (pred.modelName.getD "None"))
                ts.instanceId ++ ["eval.sh"]) "/eval.sh",
              Op.writeFile (logDirOf runId (replaceSlashes (pred.modelName.getD "None"))
                ts.instanceId ++ ["patch.diff"]) (pred.patch.getD ""),
              Op.copyToContainer (logDirOf runId (replaceSlashes (pred.modelName.getD "None"))
                ts.instanceId ++ ["patch.diff"]) DOCKER_PATCH ] ++
            aOps ++
            [Op.execRun "git -c core.fileMode=false diff"] ++
            [ Op.execRunWithTimeout "/bin/bash /eval.sh" timeout,
              Op.writeFile (logDirOf runId (replaceSlashes (pred.modelName.getD "None"))
                ts.instanceId ++ [LOG_TEST_OUTPUT]) (out ++ timeoutMsg timeout) ]))) ++
         ([Op.stopRemoveContainer] ++
          (if rmImage then [Op.removeImage ts.instanceImageKey] else []) ++
          [Op.closeLogger]),
         Except.ok none) := by
      simp [runInstance, hrep, runBody, hbuild, hgold, runTestsOnBase,
        runTestsOnBefore, hb0, hb1, runTestsOnAfter, hap, htmo]
    refine ⟨by rw [hrun], by rw [hrun]; simp, ?_, ?_⟩
    · intro c
      rw [hrun]
      cases hri : ts.isRemoteImage <;> cases hsl : env.symlinkExists <;>
        cases hrm : rmImage <;>
          simp [hri, hsl, hrm, List.append_cancel_left_eq, hnorep, LOG_REPORT,
            LOG_TEST_OUTPUT, LOG_TEST_BASE_OUTPUT, LOG_TEST_BEFORE_OUTPUT]
    · refine ⟨((if ts.isRemoteImage then []
         else if env.symlinkExists then []
         else [Op.symlink (logDirOf runId (replaceSlashes (pred.modelName.getD "None"))
                 ts.instanceId ++ ["image_build_dir"])]) ++
        [Op.mkdirLogDir, Op.setupLogger]) ++
       ([Op.buildContainer, Op.startContainer] ++
        (([ Op.writeFile (logDirOf runId (replaceSlashes (pred.modelName.getD "None"))
              ts.instanceId ++ ["base_eval.sh"])
              (remove_git_apply_block
                (if has_new_file_in_patch ts.testPatch then ts.evalScriptAllTests
                 else ts.evalScript)),
            Op.copyToContainer (logDirOf runId (replaceSlashes (pred.modelName.getD "None"))
              ts.instanceId ++ ["base_eval.sh"]) "/eval.sh",
            Op.execRunWithTimeout "/bin/bash /eval.sh" timeout,
            Op.writeFile (logDirOf runId (replaceSlashes (pred.modelName.getD "None"))
              ts.instanceId ++ [LOG_TEST_BASE_OUTPUT]) (env.execT 0).1 ] ++
          [ Op.writeFile (logDirOf runId (replaceSlashes (pred.modelName.getD "None"))
              ts.instanceId ++ ["eval.sh"]) ts.evalScript,
            Op.copyToContainer (logDirOf runId (replaceSlashes (pred.modelName.getD "None"))
              ts.instanceId ++ ["eval.sh"]) "/eval.sh",
            Op.execRunWithTimeout "/bin/bash /eval.sh" timeout,
            Op.writeFile (logDirOf runId (replaceSlashes (pred.modelName.getD "None"))
              ts.instanceId ++ [LOG_TEST_BEFORE_OUTPUT]) (env.execT 1).1 ]) ++
         ([ Op.writeFile (logDirOf runId (replaceSlashes (pred.modelName.getD "None"))
              ts.instanceId ++ ["eval.sh"])
              (if has_new_file_in_patch ts.testPatch then ts.evalScriptAllTests
               else ts.evalScript),
            Op.copyToContainer (logDirOf runId (replaceSlashes (pred.modelName.getD "None"))
              ts.instanceId ++ ["eval.sh"]) "/eval.sh",
            Op.writeFile (logDirOf runId (replaceSlashes (pred.modelName.getD "None"))
              ts.instanceId ++ ["patch.diff"]) (pred.patch.getD ""),
            Op.copyToContainer (logDirOf runId (replaceSlashes (pred.modelName.getD "None"))
              ts.instanceId ++ ["patch.diff"]) DOCKER_PATCH ] ++
          aOps ++
          [Op.execRun "git -c core.fileMode=false diff"] ++
          [ Op.execRunWithTimeout "/bin/bash /eval.sh" timeout,
            Op.writeFile (logDirOf runId (replaceSlashes (pred.modelName.getD "None"))
              ts.instanceId ++ [LOG_TEST_OUTPUT]) (out ++ timeoutMsg timeout) ]))), ?_⟩
      rw [hrun]
      simp [List.append_assoc]

theorem timeout_writes_annotation_witness :
    (runInstance
        ⟨false, "", false, false, true, "",
          fun k => if k == 0 then ⟨1, "fail"⟩ else ⟨0, "ok"⟩,
          fun k => if k == 2 then ("partial", true) else ("ok", false)⟩
        ⟨"i1", "s", "sa", "k", true, ""⟩ ⟨"i1", some "gold", some "p"⟩ true "r" 7 false).2 =
      Except.ok none
  ∧ Op.writeFile
      (logDirOf "r" (replaceSlashes ((some "gold").getD "None")) "i1" ++ [LOG_TEST_OUTPUT])
      ("partial" ++ timeoutMsg 7)
      ∈ (runInstance
        ⟨false, "", false, false, true, "",
          fun k => if k == 0 then ⟨1, "fail"⟩ else ⟨0, "ok"⟩,
          fun k => if k == 2 then ("partial", true) else ("ok", false)⟩
        ⟨"i1", "s", "sa", "k", true, ""⟩ ⟨"i1", some "gold", some "p"⟩ true "r" 7 false).1 :=
  ⟨(timeout_writes_annotation_and_cleans_up
      ⟨false, "", false, false, true, "",
        fun k => if k == 0 then ⟨1, "fail"⟩ else ⟨0, "ok"⟩,
        fun k => if k == 2 then ("partial", true) else ("ok", false)⟩
      ⟨"i1", "s", "sa", "k", true, ""⟩ ⟨"i1", some "gold", some "p"⟩ true "r" 7 "partial"
      rfl rfl (fun _ => by decide) (fun _ => by decide) (by decide) (by decide)).1,
   (timeout_writes_annotation_and_cleans_up
      ⟨false, "", false, false, true, "",
        fun k => if k == 0 then ⟨1, "fail"⟩ else ⟨0, "ok"⟩,
        fun k => if k == 2 then ("partial", true) else ("ok", false)⟩
      ⟨"i1", "s", "sa", "k", true, ""⟩ ⟨"i1", some "gold", some "p"⟩ true "r" 7 "partial"
      rfl rfl (fun _ => by decide) (fun _ => by decide) (by decide) (by decide)).2.1⟩
